import Mathlib

/-!
# FieldLens — verification of the photo-validation core

Shallow embedding of the FieldLens server core
(`app/services/ocr.py`, `app/services/dedupe.py`, `app/services/validate.py`,
`app/routes/whatsapp.py`).  Pure string-processing functions are translated
directly; the OpenCV / OCR primitives (blur score, skew estimate, perceptual
hash, recognized text lines, circle detection) are modelled as attributes of
an abstract image value, exactly as the Python code consumes their outputs.
Python `re` searches are hand-compiled into an explicit backtracking matcher
that follows Python's leftmost-match / ordered-alternation / greedy semantics
for the concrete patterns used by the source.
-/

namespace FieldLens

/-! ## ASCII character model (Python `str` predicates restricted to ASCII) -/

/-- Python `\s` (ASCII): space, tab, newline, carriage return, form feed,
vertical tab. -/
def isPyWs (c : Char) : Bool :=
  c = ' ' || c = '\t' || c = '\n' || c = '\x0d' || c = '\x0c' || c = '\x0b'

/-- Python `\w` (ASCII): letters, digits, underscore. -/
def isWordChar (c : Char) : Bool :=
  c.isAlpha || c.isDigit || c = '_'

/-- Hexadecimal digit, either case: the class `[0-9A-Fa-f]`. -/
def isHexC (c : Char) : Bool :=
  c.isDigit || ('a' ≤ c && c ≤ 'f') || ('A' ≤ c && c ≤ 'F')

/-- Uppercase hexadecimal digit: `[0-9A-F]`. -/
def isUpperHexC (c : Char) : Bool :=
  c.isDigit || ('A' ≤ c && c ≤ 'F')

/-- Python `str.upper` on one ASCII character. -/
def asciiUpper (c : Char) : Char :=
  if 'a' ≤ c && c ≤ 'z' then Char.ofNat (c.toNat - 32) else c

/-- Python `str.upper` on a character list. -/
def upperL (s : List Char) : List Char := s.map asciiUpper

/-- Python `str.upper` on a string. -/
def pyUpper (s : String) : String := String.mk (upperL s.data)

/-- Case-insensitive character equality (Python `re.IGNORECASE`, ASCII). -/
def eqCI (a b : Char) : Bool := asciiUpper a = asciiUpper b

/-- Python `str.strip()` on a character list. -/
def stripL (s : List Char) : List Char :=
  ((s.dropWhile isPyWs).reverse.dropWhile isPyWs).reverse

/-- Python `str.strip()`. -/
def pyStrip (s : String) : String := String.mk (stripL s.data)

/-- `sub` occurs as a leading segment of `s`. -/
def leadsL : List Char → List Char → Bool
  | [], _ => true
  | _ :: _, [] => false
  | a :: as, b :: bs => a = b && leadsL as bs

/-- Python `sub in s` (substring containment). -/
def containsL (sub : List Char) : List Char → Bool
  | [] => leadsL sub []
  | c :: rest => leadsL sub (c :: rest) || containsL sub rest

/-- Python `str.splitlines` (restricted to `\n`, `\r\n` and `\r`). -/
def splitLinesL : List Char → List (List Char)
  | [] => []
  | c :: rest =>
    if c = '\n' then [] :: splitLinesL rest
    else if c = '\x0d' then
      match rest with
      | '\n' :: r => [] :: splitLinesL r
      | r => [] :: splitLinesL r
    else
      match splitLinesL rest with
      | [] => [[c]]
      | l :: ls => (c :: l) :: ls

/-- Decimal digits to a natural number (Python `int` on a digit string). -/
def natOfDigits (s : List Char) : Nat :=
  s.foldl (fun n c => n * 10 + (c.toNat - 48)) 0

/-- Python `":".join`. -/
def colonJoin : List String → String
  | [] => ""
  | [p] => p
  | p :: rest => p ++ ":" ++ colonJoin rest

/-! ## A small backtracking matcher

Python `re` is hand-compiled pattern by pattern.  A matcher takes the
character preceding the current position (`none` at the start of the string,
needed for `\b` and look-behind) and the remaining input, and returns the
list of possible outcomes `(consumed, newPrev, rest)` in Python's
backtracking priority order: ordered alternation, greedy repetition
(longest first).  `search` scans start positions from the left and keeps the
first successful outcome, exactly like `re.search`. -/

/-- One matcher outcome: consumed characters, new preceding character,
remaining input. -/
abbrev MRes := List (List Char × Option Char × List Char)

/-- A matcher over `(preceding character, remaining input)`. -/
abbrev Mat := Option Char → List Char → MRes

/-- Empty pattern. -/
def mEps : Mat := fun p s => [([], p, s)]

/-- Single character from a class. -/
def mCls (f : Char → Bool) : Mat := fun _ s =>
  match s with
  | c :: r => if f c then [([c], some c, r)] else []
  | [] => []

/-- Case-insensitive literal. -/
def mLit (lit : List Char) : Mat := fun p s =>
  match lit with
  | [] => [([], p, s)]
  | l :: ls =>
    match s with
    | c :: r => if eqCI l c then (mLit ls (some c) r).map
        (fun (cs, p2, r2) => (c :: cs, p2, r2)) else []
    | [] => []

/-- Concatenation: outcomes of the first, each continued by the second. -/
def mSeq (a b : Mat) : Mat := fun p s =>
  (a p s).flatMap fun (c1, p1, r1) =>
    (b p1 r1).map fun (c2, p2, r2) => (c1 ++ c2, p2, r2)

/-- Ordered alternation. -/
def mAlt (as : List Mat) : Mat := fun p s => as.flatMap (fun a => a p s)

/-- Greedy `?`: try with the subpattern first, then without. -/
def mOpt (a : Mat) : Mat := fun p s => a p s ++ [([], p, s)]

/-- Word boundary `\b`: exactly one of the two neighbouring characters is a
word character (string ends count as non-word). -/
def mWordB : Mat := fun p s =>
  let pw := match p with | some c => isWordChar c | none => false
  let nw := match s with | c :: _ => isWordChar c | [] => false
  if pw != nw then [([], p, s)] else []

/-- Greedy bounded class repetition `[cls]{lo,hi}`: longest first. -/
def mRep (f : Char → Bool) (lo hi : Nat) : Mat := fun p s =>
  let run := (s.take hi).takeWhile f
  let n := run.length
  if n < lo then []
  else
    (List.range (n - lo + 1)).map fun j =>
      let k := n - j
      (s.take k, (if k = 0 then p else (s.take k).getLast? ), s.drop k)

/-- Greedy unbounded class repetition `[cls]*`. -/
def mStar (f : Char → Bool) : Mat := fun p s => mRep f 0 s.length p s

/-- Leftmost search: first outcome of `m` at the leftmost position where it
has one, paired through `g` (which receives the whole outcome list at that
position and extracts the wanted result). -/
def searchG {α : Type} (g : Option Char → List Char → Option α) :
    Option Char → List Char → Option α
  | p, s =>
    match g p s with
    | some a => some a
    | none =>
      match s with
      | [] => none
      | c :: r => searchG g (some c) r

/-! ## `app/services/ocr.py` — text extraction

Character classes of the regular expressions used by the source. -/

/-- The MAC separator class `[:\-\.]`. -/
def isMacSep (c : Char) : Bool := c = ':' || c = '-' || c = '.'

/-- The class `[:\-\s]` (separators allowed between a MAC keyword and its
value). -/
def isSepWsC (c : Char) : Bool := c = ':' || c = '-' || isPyWs c

/-- The class `[0-9A-Fa-f:\-\.\s]` of `MAC_KEYWORD`'s captured value. -/
def isMacValC (c : Char) : Bool := isHexC c || isMacSep c || isPyWs c

/-- The class `[A-Z0-9\-]` under `re.IGNORECASE` (labeled RSN capture). -/
def isTokCI (c : Char) : Bool :=
  ('A' ≤ c && c ≤ 'Z') || ('a' ≤ c && c ≤ 'z') || c.isDigit || c = '-'

/-- The class `[A-Z0-9\-]` without `IGNORECASE` (`RSN_TOKEN_RE`). -/
def isTokUp (c : Char) : Bool := ('A' ≤ c && c ≤ 'Z') || c.isDigit || c = '-'

/-- The class `[:#\-]` after an RSN label. -/
def isRsnSep (c : Char) : Bool := c = ':' || c = '#' || c = '-'

/-- `HEX_PAIR.findall`: non-overlapping `[0-9A-Fa-f]{2}` matches. -/
def hexPairsF : List Char → List String
  | c0 :: c1 :: rest =>
    if isHexC c0 && isHexC c1 then String.mk [c0, c1] :: hexPairsF rest
    else hexPairsF (c1 :: rest)
  | _ => []

/-- `HEX_PAIR_BOUNDARY.findall`: hex pairs with no hex digit on either side.
The first argument tells whether the character before the current position
is a hex digit. -/
def hexPairsBdF : Bool → List Char → List String
  | prevHex, c0 :: c1 :: rest =>
    if !prevHex && isHexC c0 && isHexC c1 &&
        !(match rest with | c2 :: _ => isHexC c2 | [] => false) then
      String.mk [c0, c1] :: hexPairsBdF true rest
    else hexPairsBdF (isHexC c0) (c1 :: rest)
  | _, _ => []

/-- `_normalize_mac`: keep only hex pairs, take the first six, uppercase,
join with colons. -/
def normalize_mac (raw : String) : Option String :=
  if raw = "" then none
  else
    let hexes := hexPairsF raw.data
    if hexes.length < 6 then none
    else some (colonJoin ((hexes.take 6).map pyUpper))

/-- The keyword alternation of `MAC_KEYWORD` / `MAC_LINE_HINT`:
`MAC(?:\s*ID)?|WLAN\s*MAC|WIFI\s*MAC|LAN\s*MAC|ETH(?:ERNET)?\s*MAC`. -/
def macLabelAlt : Mat :=
  mAlt
    [ mSeq (mLit "MAC".data) (mOpt (mSeq (mStar isPyWs) (mLit "ID".data))),
      mSeq (mLit "WLAN".data) (mSeq (mStar isPyWs) (mLit "MAC".data)),
      mSeq (mLit "WIFI".data) (mSeq (mStar isPyWs) (mLit "MAC".data)),
      mSeq (mLit "LAN".data) (mSeq (mStar isPyWs) (mLit "MAC".data)),
      mSeq (mLit "ETH".data)
        (mSeq (mOpt (mLit "ERNET".data)) (mSeq (mStar isPyWs) (mLit "MAC".data))) ]

/-- Body of `MAC_RE` / `MAC_PATTERNS[0]`:
`\b([0-9A-Fa-f]{2}[:\-\.]){5}[0-9A-Fa-f]{2}\b`. -/
def macColonBody : Mat :=
  let pair := mSeq (mCls isHexC) (mCls isHexC)
  let ps := mSeq pair (mCls isMacSep)
  mSeq mWordB
    (mSeq ps (mSeq ps (mSeq ps (mSeq ps (mSeq ps (mSeq pair mWordB))))))

/-- Body of `MAC_PATTERNS[1]`: `\b[0-9A-Fa-f]{12}\b`. -/
def macBareBody : Mat :=
  mSeq mWordB (mSeq (mRep isHexC 12 12) mWordB)

/-- `re.search` of a pattern, returning the whole matched text. -/
def searchWhole (m : Mat) (cs : List Char) : Option String :=
  searchG (fun p s => ((m p s).head?).map fun (c, _, _) => String.mk c) none cs

/-- `MAC_KEYWORD.search(ln)`, returning group 2 (the captured value). -/
def macKeywordSearch (cs : List Char) : Option String :=
  let pre := mSeq mWordB (mSeq macLabelAlt (mSeq mWordB (mStar isSepWsC)))
  searchG
    (fun p s =>
      ((pre p s).flatMap fun (_, p1, r1) =>
        (mRep isMacValC 12 48 p1 r1).map fun (g, _, _) => g).head?.map
        String.mk)
    none cs

/-- `MAC_LINE_HINT.search(ln)`, returning the text after the match
(`ln[hint.end():]`), or `none` when the line has no MAC keyword. -/
def hintRestSearch (cs : List Char) : Option (List Char) :=
  let body := mSeq mWordB (mSeq macLabelAlt mWordB)
  searchG (fun p s => ((body p s).head?).map fun (_, _, r) => r) none cs

/-- `"EAN"` as characters (lines containing it are excluded everywhere). -/
def eanChars : List Char := ['E', 'A', 'N']

/-- Candidates from the two strict patterns on one line
(the `for pat in MAC_PATTERNS` loop body). -/
def lineStrict (cs : List Char) : List String :=
  ((searchWhole macColonBody cs).bind normalize_mac).toList ++
    ((searchWhole macBareBody cs).bind normalize_mac).toList

/-- Pass A of `_extract_mac_from_lines`: keyword-anchored extraction on
MAC-labeled lines. -/
def passALine (ln : String) : List (String × Bool) :=
  let cs := ln.data
  if containsL eanChars (upperL cs) then []
  else if (hintRestSearch cs).isNone then []
  else
    match (macKeywordSearch cs).bind normalize_mac with
    | some n => [(n, true)]
    | none => (lineStrict cs).map fun n => (n, true)

/-- Pass B: strict patterns anywhere. -/
def passBLine (ln : String) : List (String × Bool) :=
  let cs := ln.data
  if containsL eanChars (upperL cs) then []
  else (lineStrict cs).map fun n => (n, false)

/-- All windows of six consecutive elements (`pairs[i:i+6]`). -/
def windows6 : List String → List (List String)
  | x :: rest => if 5 ≤ rest.length then (x :: rest.take 5) :: windows6 rest else []
  | [] => []

/-- Pass C: recovered spaced pairs after the MAC keyword, windows of six
pairs with at least four digit-bearing pairs. -/
def passCLine (ln : String) : List (String × Bool) :=
  let cs := ln.data
  if containsL eanChars (upperL cs) then []
  else
    match hintRestSearch cs with
    | none => []
    | some tl =>
      let pairs := hexPairsBdF false tl
      (windows6 pairs).filterMap fun w =>
        if 4 ≤ w.countP (fun p => p.data.any Char.isDigit) then
          (normalize_mac (colonJoin w)).map fun n => (n, true)
        else none

/-- The preference score of `_extract_mac_from_lines`:
`(OUI bonus + MAC-line bonus, colon form)`. -/
def macScore (mac : String) (fromMacLine : Bool) : Nat × Nat :=
  let oui := String.mk (mac.data.take 8)
  ((if oui = "CC:54:FE" then 1 else 0) + (if fromMacLine then 1 else 0),
    if mac.data.contains ':' then 1 else 0)

/-- Strict lexicographic comparison of score pairs. -/
def scoreGT (a b : Nat × Nat) : Bool := b.1 < a.1 || (a.1 = b.1 && b.2 < a.2)

/-- First element with the maximal score (Python's stable descending sort
followed by `[0]`). -/
def pickBestMac (best : String × Bool) : List (String × Bool) → String
  | [] => best.1
  | c :: rest =>
    pickBestMac (if scoreGT (macScore c.1 c.2) (macScore best.1 best.2) then c else best) rest

/-- `_extract_mac_from_lines`. -/
def extract_mac_from_lines (lines : List String) : Option String :=
  let candA := lines.flatMap passALine
  let cand :=
    if candA ≠ [] then candA
    else
      let candB := lines.flatMap passBLine
      if candB ≠ [] then candB else lines.flatMap passCLine
  match cand with
  | [] => none
  | c :: rest => some (pickBestMac c rest)

/-- `extract_mac`: whole-text `MAC_RE` search, uppercased. -/
def extract_mac (text : String) : Option String :=
  (searchWhole macColonBody text.data).map pyUpper

/-- The stopword set `RSN_STOPWORDS`. -/
def RSN_STOPWORDS : List String :=
  [ "COMMODITY", "INDIA", "MADEININDIA", "WARRANTY", "MODEL",
    "MANUFACTURED", "EXPIRY", "BATCH", "ADDRESS", "CONTACT",
    "SUPPORT", "SERVICE", "HELPLINE", "SERIES", "PRODUCT",
    "POWER", "VOLT", "AMPS", "HERTZ", "DATE", "CODE" ]

/-- `MAC_RE.match(s)`: the colon-form MAC pattern anchored at the start. -/
def macColonMatch0 (cs : List Char) : Bool :=
  !(macColonBody none cs).isEmpty

/-- `RSN_LABELED_RE.search`, returning group 1:
`\b(?:RSN|S\/N|SERIAL|SRN|ASN)\s*[:#\-]?\s*([A-Z0-9\-]{6,24})\b`
(case-insensitive). -/
def rsnLabeledSearch (cs : List Char) : Option String :=
  let lab := mAlt [mLit "RSN".data, mLit "S/N".data, mLit "SERIAL".data,
    mLit "SRN".data, mLit "ASN".data]
  let pre := mSeq mWordB (mSeq lab
    (mSeq (mStar isPyWs) (mSeq (mOpt (mCls isRsnSep)) (mStar isPyWs))))
  searchG
    (fun p s =>
      ((pre p s).flatMap fun (_, p1, r1) =>
        (mRep isTokCI 6 24 p1 r1).flatMap fun (g, p2, r2) =>
          (mWordB p2 r2).map fun _ => g).head?.map String.mk)
    none cs

/-- `RSN_TOKEN_RE.findall`: non-overlapping `[A-Z0-9\-]{6,24}` matches.
The second argument counts positions still covered by the previous match or
known to start a too-short class run. -/
def rsnTokensAux : List Char → Nat → List String
  | [], _ => []
  | c :: r, skip =>
    if skip ≠ 0 then rsnTokensAux r (skip - 1)
    else if isTokUp c then
      let run := 1 + (r.takeWhile isTokUp).length
      if 6 ≤ run then
        let k := min 24 run
        String.mk ((c :: r).take k) :: rsnTokensAux r (k - 1)
      else rsnTokensAux r (run - 1)
    else rsnTokensAux r 0

/-- `RSN_TOKEN_RE.findall` over a whole text. -/
def rsnTokensF (s : List Char) : List String := rsnTokensAux s 0

/-- `_is_probable_rsn`. -/
def is_probable_rsn (token : String) : Bool :=
  if token = "" then false
  else
    let s := pyUpper (pyStrip token)
    if s.data.length < 8 || 24 < s.data.length then false
    else if macColonMatch0 s.data then false
    else if RSN_STOPWORDS.contains s then false
    else decide (3 ≤ s.data.countP (fun c => c.isDigit))

/-- Python truthiness of an optional string (`None` and `""` are falsy). -/
def pyTruthyS (o : Option String) : Bool :=
  match o with
  | some s => s ≠ ""
  | none => false

/-- Digit count and length, the unlabeled-candidate ranking key. -/
def rsnScore (tok : String) : Nat × Nat :=
  (tok.data.countP (fun c => c.isDigit), tok.data.length)

/-- First token with the maximal `(digits, length)` key (stable descending
sort followed by `[0]`). -/
def pickBestRsn (best : String) : List String → String
  | [] => best
  | x :: rest => pickBestRsn (if scoreGT (rsnScore x) (rsnScore best) then x else best) rest

/-- Steps 2 and 3 of `extract_rsn`: per-line labeled search, then the
token-scan fallback. -/
def rsnFallback (text : String) (lines : List String) : Option String :=
  let fromLines := lines.findSome? fun ln =>
    match (rsnLabeledSearch ln.data).map pyUpper with
    | some cand => if is_probable_rsn cand then some cand else none
    | none => none
  match fromLines with
  | some cand => some cand
  | none =>
    let tokens := (rsnTokensF (upperL text.data)).map pyUpper
    let cands := tokens.filter is_probable_rsn ++
      lines.flatMap fun ln =>
        ((rsnTokensF (upperL ln.data)).map pyUpper).filter is_probable_rsn
    match cands with
    | [] => none
    | c :: rest => some (pickBestRsn c rest)

/-- `extract_rsn` (the `lines=None` default is modelled by `[]`, which is
falsy exactly like `None` everywhere the source tests it). -/
def extract_rsn (text : String) (lines : List String) : Option String :=
  if text = "" then none
  else
    match (rsnLabeledSearch text.data).map pyUpper with
    | some cand => if is_probable_rsn cand then some cand else rsnFallback text lines
    | none => rsnFallback text lines

/-- The compass-direction alternation of `ANGLE_RE`, in source order. -/
def dirAltM : Mat :=
  mAlt [mLit ['N'], mLit ['N', 'E'], mLit ['E'], mLit ['S', 'E'],
    mLit ['S'], mLit ['S', 'W'], mLit ['W'], mLit ['N', 'W']]

/-- One attempt of `ANGLE_RE` at the current position: returns
`(degrees, direction, matched length)` of the first (Python-preferred)
outcome. -/
def angleAt (p : Option Char) (s : List Char) : Option (Nat × Option String × Nat) :=
  let outs :=
    (mWordB p s).flatMap fun (_, p1, r1) =>
      (mRep Char.isDigit 1 3 p1 r1).flatMap fun (gd, p2, r2) =>
        ((mSeq (mStar isPyWs) (mSeq (mOpt (mLit ['°'])) (mStar isPyWs))) p2 r2).flatMap
          fun (_, p3, r3) =>
            (mOpt dirAltM p3 r3).flatMap fun (gdir, p4, r4) =>
              (mWordB p4 r4).map fun _ => (gd, gdir, r4)
  outs.head?.map fun (gd, gdir, r4) =>
    (natOfDigits gd,
      (if gdir.isEmpty then none else some (String.mk (upperL gdir))),
      s.length - r4.length)

/-- `ANGLE_RE.finditer`: non-overlapping matches, left to right.  The last
argument counts positions still covered by the previous match. -/
def angleMatchesAux : Option Char → List Char → Nat → List (Nat × Option String)
  | _, [], _ => []
  | p, c :: r, skip =>
    if skip ≠ 0 then angleMatchesAux (some c) r (skip - 1)
    else
      match angleAt p (c :: r) with
      | some (d, dir, k) => (d, dir) :: angleMatchesAux (some c) r (k - 1)
      | none => angleMatchesAux (some c) r 0

/-- All `(degrees, direction)` matches of `ANGLE_RE` in a text. -/
def angleMatches (s : List Char) : List (Nat × Option String) :=
  angleMatchesAux none s 0

/-- The `for m in ANGLE_RE.finditer(text)` loop of `extract_angle`, with its
`fallback` accumulator. -/
def extractAngleLoop :
    List (Nat × Option String) → Option (Nat × Option String) → Option Nat × Option String
  | [], fb =>
    match fb with
    | some (d, dir) => (some d, dir)
    | none => (none, none)
  | (d, dir) :: rest, fb =>
    if d ≤ 360 then
      match dir with
      | some dd => (some d, some dd)
      | none => extractAngleLoop rest (if fb.isNone then some (d, none) else fb)
    else extractAngleLoop rest fb

/-- `extract_angle`. -/
def extract_angle (text : String) : Option Nat × Option String :=
  if text = "" then (none, none)
  else extractAngleLoop (angleMatches text.data) none

/-! ## `app/services/dedupe.py` -/

/-- `hamming`: mismatch count over `zip` (extra characters of the longer
string are ignored, as with Python `zip`). -/
def hamming (a b : String) : Nat :=
  ((a.data.zip b.data).filter fun (c1, c2) => c1 ≠ c2).length

/-! ## `app/services/validate.py` -/

/-- The extracted-field mapping of a verdict.  The source uses a dict whose
keys depend on the photo type (`macId`/`rsn` for labels, `azimuthDeg`/
`azimuthDir` for azimuth photos); an absent key and a key stored as `None`
behave identically in every `fields.get(...)` the code performs, so both are
`none`. -/
structure Fields where
  macId : Option String := none
  rsn : Option String := none
  azimuthDeg : Option Nat := none
  azimuthDir : Option String := none
deriving Repr, DecidableEq

/-- `extract_label_fields` (TEAM API): line-aware MAC extractor with a
whole-text fallback, plus the RSN extractor. -/
def extract_label_fields (text : String) : Fields :=
  let lines := ((splitLinesL text.data).map fun l => String.mk (stripL l)).filter
    fun l => l ≠ ""
  let mac0 := if lines.isEmpty then none else extract_mac_from_lines lines
  let mac := if pyTruthyS mac0 then mac0 else extract_mac text
  { macId := mac, rsn := extract_rsn text lines }

/-- `extract_azimuth` (TEAM API). -/
def extract_azimuth (text : String) : Fields :=
  let (d, dir) := extract_angle text
  { azimuthDeg := d, azimuthDir := dir }

/-- The `checks` mapping of a verdict.  `skewDeg`, `hasLabelIds` and
`skewWarn` are only inserted on some paths (`none` = key absent); `skewDeg`
itself stores an optional measurement (`some none` = key present, value
`None`). -/
structure Checks where
  blurScore : ℚ
  isDuplicate : Bool := false
  skewDeg : Option (Option ℚ) := none
  hasLabelIds : Option Bool := none
  skewWarn : Option Bool := none
deriving Repr, DecidableEq

/-- Verdict status. -/
inductive VStatus where
  | PASS
  | FAIL
deriving Repr, DecidableEq

/-- The verdict returned by `run_pipeline` (its `ocrText` key is always
`None` and is omitted). -/
structure Verdict where
  rtype : String
  phash : String
  fields : Fields
  checks : Checks
  status : VStatus
  reason : List String
deriving Repr, DecidableEq

/-- The abstract image: the outputs of the OpenCV / OCR primitives the
pipeline consumes (`variance_of_laplacian`, `phash`,
`largest_quadrilateral_skew_deg`, `has_big_circle`, and the recognized text
lines returned by the shared OCR engine in `_prefer_easyocr_lines`). -/
structure ImgData where
  blur : ℚ
  phash : String
  skew : Option ℚ
  hasBigCircle : Bool
  ocrLines : List String
deriving Repr, DecidableEq

/-- `classify` as called by the pipeline (`ocr_hint=None`, so only the
big-circle heuristic applies). -/
def classify (img : ImgData) : String :=
  if img.hasBigCircle then "AZIMUTH" else "LABELLING"

/-- `_prefer_easyocr_lines`: recognized lines, stripped, empties dropped. -/
def preferLines (img : ImgData) : List String :=
  (img.ocrLines.map pyStrip).filter fun l => l ≠ ""

/-- `" ".join` over a list of strings. -/
def spaceJoin : List String → String
  | [] => ""
  | [p] => p
  | p :: rest => p ++ " " ++ spaceJoin rest

/-- `ocr_text_block`. -/
def ocr_text_block (img : ImgData) : String :=
  pyStrip (spaceJoin (preferLines img))

/-- `ocr_single_line`: the first longest line (Python `max(lines, key=len)`
keeps the first maximum). -/
def ocr_single_line (img : ImgData) : String :=
  match preferLines img with
  | [] => ""
  | l :: rest => pickFirstLongest l rest
where
  pickFirstLongest (best : String) : List String → String
    | [] => best
    | x :: rest =>
      pickFirstLongest (if best.data.length < x.data.length then x else best) rest

/-- The OCR hint assembled for label photos:
`(text_block + "\n" + text_line).strip()`. -/
def labelOcrHint (img : ImgData) : String :=
  pyStrip (ocr_text_block img ++ "\n" ++ ocr_single_line img)

/-- The `DEFAULTS` thresholds, with per-key overrides
(`{**DEFAULTS, **(job_ctx.get("thresholds") or {})}`). -/
structure Thresholds where
  blur_min : ℚ := 140
  dup_hamming_max : ℚ := 5
  label_skew_max : ℚ := 20
deriving Repr, DecidableEq

/-- The `job_ctx` argument of `run_pipeline`. -/
structure JobCtx where
  expectedType : Option String := none
  thresholds : Thresholds := {}
deriving Repr, DecidableEq

/-- `LABEL_TYPES` membership. -/
def isLabelType (t : String) : Bool := t = "LABELLING" || t = "LABEL"

/-- `AZIMUTH_TYPES` membership. -/
def isAzimuthType (t : String) : Bool := t = "AZIMUTH"

/-- The working type of step 2: the caller's `expectedType` uppercased, or
the classifier's answer when the caller did not supply one. -/
def resolveType (img : ImgData) (ctx : JobCtx) : String :=
  let ptype := pyUpper (ctx.expectedType.getD "")
  if ptype = "" then classify img else ptype

/-- `run_pipeline`. -/
def run_pipeline (img : ImgData) (ctx : JobCtx) (existing_phashes : List String) :
    Verdict :=
  let th := ctx.thresholds
  let issues0 : List String := if img.blur < th.blur_min then ["Image is blurry"] else []
  let ptype := resolveType img ctx
  let cur_phash := img.phash
  let is_dup := existing_phashes.any fun prev => (hamming cur_phash prev : ℚ) ≤ th.dup_hamming_max
  let checks0 : Checks := { blurScore := img.blur, isDuplicate := is_dup }
  let blurry := issues0.contains "Image is blurry"
  if isLabelType ptype then
    let skew := img.skew
    let (fields, has_ids, hasLabelIdsC) :=
      if !blurry then
        let f := extract_label_fields (labelOcrHint img)
        let h := pyTruthyS f.macId || pyTruthyS f.rsn
        (f, h, some h)
      else (({} : Fields), false, none)
    let skewHigh := match skew with
      | some s => decide (th.label_skew_max < s)
      | none => false
    let issues1 := issues0 ++ (if skewHigh && !has_ids then ["Label angle too skewed"] else [])
    let issues2 := issues1 ++ (if !has_ids then ["Could not read MAC/RSN from label"] else [])
    let checks1 : Checks :=
      { checks0 with
        skewDeg := some skew
        hasLabelIds := hasLabelIdsC
        skewWarn := if skewHigh && has_ids then some true else none }
    { rtype := ptype, phash := cur_phash, fields := fields, checks := checks1,
      status := if issues2.isEmpty then .PASS else .FAIL, reason := issues2 }
  else if isAzimuthType ptype then
    let (fields, issues1) :=
      if !blurry then
        let f := extract_azimuth (ocr_text_block img)
        let azFalsy := match f.azimuthDeg with
          | some d => decide (d = 0)
          | none => true
        (f, issues0 ++ (if azFalsy then ["Could not read compass/azimuth value"] else []))
      else (({} : Fields), issues0)
    { rtype := ptype, phash := cur_phash, fields := fields, checks := checks0,
      status := if issues1.isEmpty then .PASS else .FAIL, reason := issues1 }
  else
    { rtype := ptype, phash := cur_phash, fields := ({} : Fields), checks := checks0,
      status := if issues0.isEmpty then .PASS else .FAIL, reason := issues0 }

/-! ## `app/routes/whatsapp.py` — job progression

The job document fields the processing step reads or writes: the ordered
required types, the cursor, the job status, and the promoted identifier
fields.  `_process_and_notify` and `debug_upload` are modelled by their
effect on this state when a verdict is applied; the photo record, storage
and notification side effects are outside the job state. -/

/-- Job status (`PENDING`/`IN_PROGRESS`/`DONE`). -/
inductive JobStatus where
  | PENDING
  | IN_PROGRESS
  | DONE
deriving Repr, DecidableEq

/-- The job document. -/
structure Job where
  requiredTypes : List String
  currentIndex : Nat
  status : JobStatus
  macId : Option String := none
  rsnId : Option String := none
  azimuthDeg : Option Nat := none
deriving Repr, DecidableEq

/-- `_current_expected_type`: `requiredTypes[currentIndex]` when the cursor
is in range, else `None`. -/
def currentExpectedType (job : Job) : Option String :=
  job.requiredTypes.get? job.currentIndex

/-- The identifier-promotion block (`updates` + `$set`): `macId`/`rsnId`
when truthy, `azimuthDeg` when not `None`. -/
def promoteFields (job : Job) (f : Fields) : Job :=
  let j1 := if pyTruthyS f.macId then { job with macId := f.macId } else job
  let j2 := if pyTruthyS f.rsn then { j1 with rsnId := f.rsn } else j1
  if f.azimuthDeg.isSome then { j2 with azimuthDeg := f.azimuthDeg } else j2

/-- `result_type = (result.get("type") or expected or "LABELLING").upper()`. -/
def resultTypeOf (expected : Option String) (v : Verdict) : String :=
  pyUpper (if v.rtype ≠ "" then v.rtype
    else if expected.getD "" ≠ "" then expected.getD "" else "LABELLING")

/-- The advance guard
`status == "PASS" and expected and result_type == expected`. -/
def advanceCond (expected : Option String) (v : Verdict) : Bool :=
  v.status = VStatus.PASS &&
    (match expected with
     | some e => e ≠ "" && resultTypeOf expected v = e
     | none => false)

/-- The job-state effect of `_process_and_notify` steps 4–7: promote
extracted identifiers, unconditionally `$inc` the cursor when the advance
guard holds, then (on PASS) mark the job DONE when no expected type
remains. -/
def processVerdictBG (job : Job) (v : Verdict) : Job :=
  let expected := currentExpectedType job
  let j1 := promoteFields job v.fields
  let j2 := if advanceCond expected v then { j1 with currentIndex := j1.currentIndex + 1 } else j1
  if v.status = VStatus.PASS && (currentExpectedType j2).isNone then
    { j2 with status := JobStatus.DONE }
  else j2

/-- The job-state effect of `debug_upload`: identical promotion and advance
guard, but the DONE check runs only after an actual advance. -/
def processVerdictDebug (job : Job) (v : Verdict) : Job :=
  let expected := currentExpectedType job
  let j1 := promoteFields job v.fields
  if advanceCond expected v then
    let j2 := { j1 with currentIndex := j1.currentIndex + 1 }
    if (currentExpectedType j2).isNone then { j2 with status := JobStatus.DONE } else j2
  else j1

/-! ## Statement-side predicates -/

/-- `n` uppercase two-hex-digit groups joined by single colons. -/
def macGroups : Nat → List Char → Bool
  | 1, [a, b] => isUpperHexC a && isUpperHexC b
  | n + 2, a :: b :: ':' :: rest => isUpperHexC a && isUpperHexC b && macGroups (n + 1) rest
  | _, _ => false

/-- Canonical MAC form: exactly six uppercase two-hex-digit groups joined
by colons. -/
def isCanonicalMac (s : String) : Bool := macGroups 6 s.data

/-- Truthiness-based "an identifier was read" on a verdict's fields
(`bool(fields.get("macId")) or bool(fields.get("rsn"))`). -/
def hasIds (f : Fields) : Bool := pyTruthyS f.macId || pyTruthyS f.rsn

/-- The azimuth-extraction result as the spec words it: among the in-range
(`0..360`) matches, the first with an explicit direction; otherwise the
first in-range match, without direction; otherwise nothing. -/
def specAngle (text : String) : Option Nat × Option String :=
  let ms := (angleMatches text.data).filter fun m => m.1 ≤ 360
  match (ms.filter fun m => m.2.isSome).head? with
  | some m => (some m.1, m.2)
  | none =>
    match ms.head? with
    | some m => (some m.1, none)
    | none => (none, none)

/-! ## Concrete fixtures for witnesses and counterexamples -/

/-- A sharp, well-aligned label image whose OCR reads a MAC and an RSN. -/
def imgSharpLabel : ImgData :=
  { blur := 200, phash := "0101", skew := some 5, hasBigCircle := false,
    ocrLines := [" MAC CC:54:FE:E3:26:F8 ", "S/N: ABCD1234EF"] }

/-- A blurry label image whose OCR text (were it consulted) contains a MAC. -/
def imgBlurLabel : ImgData :=
  { blur := 10, phash := "0101", skew := some 30, hasBigCircle := false,
    ocrLines := ["MAC CC:54:FE:E3:26:F8"] }

/-- A sharp but skewed label image with no readable identifiers. -/
def imgSkewNoIds : ImgData :=
  { blur := 200, phash := "0101", skew := some 30, hasBigCircle := false,
    ocrLines := ["hello world"] }

/-- A sharp, skewed label image whose identifiers are still readable. -/
def imgSkewIds : ImgData :=
  { blur := 200, phash := "0101", skew := some 30, hasBigCircle := false,
    ocrLines := ["MAC CC:54:FE:E3:26:F8"] }

/-- A sharp azimuth image reading zero degrees. -/
def imgAzZero : ImgData :=
  { blur := 200, phash := "0101", skew := none, hasBigCircle := true,
    ocrLines := ["0°"] }

/-- A blurry azimuth image. -/
def imgAzBlur : ImgData :=
  { blur := 10, phash := "0101", skew := none, hasBigCircle := true,
    ocrLines := ["Reading: 123° NE"] }

/-- Label-photo context. -/
def ctxLabel : JobCtx := { expectedType := some "LABELLING" }

/-- Azimuth-photo context. -/
def ctxAzimuth : JobCtx := { expectedType := some "AZIMUTH" }

/-- A job expecting a label photo, then an azimuth photo. -/
def jobLA : Job :=
  { requiredTypes := ["LABELLING", "AZIMUTH"], currentIndex := 0,
    status := JobStatus.IN_PROGRESS }

/-- A job whose two required photos are both labels. -/
def jobLL : Job :=
  { requiredTypes := ["LABELLING", "LABELLING"], currentIndex := 0,
    status := JobStatus.IN_PROGRESS }

/-- A job at its final required photo. -/
def jobLastAz : Job :=
  { requiredTypes := ["LABELLING", "AZIMUTH"], currentIndex := 1,
    status := JobStatus.IN_PROGRESS }

/-- A PASS label verdict (as `run_pipeline` produces for `imgSharpLabel`). -/
def vPassLabel : Verdict := run_pipeline imgSharpLabel ctxLabel []

/-- A PASS azimuth verdict. -/
def vPassAzimuth : Verdict :=
  run_pipeline { imgAzBlur with blur := 200 } ctxAzimuth []

/-! ## Supporting lemmas -/

theorem pyUpper_eq_empty {s : String} (h : pyUpper s = "") : s = "" := by
  obtain ⟨d⟩ := s
  simp only [pyUpper, upperL] at h
  have : (List.map asciiUpper d) = [] := congrArg String.data h
  simp only [List.map_eq_nil_iff] at this
  simp [this]

theorem resultTypeOf_ne_empty (e : Option String) (v : Verdict) :
    resultTypeOf e v ≠ "" := by
  unfold resultTypeOf
  intro h
  have h2 := pyUpper_eq_empty h
  by_cases hr : v.rtype = ""
  · by_cases he : e.getD "" = "" <;> simp [hr, he] at h2
  · simp [hr] at h2

theorem promoteFields_currentIndex (job : Job) (f : Fields) :
    (promoteFields job f).currentIndex = job.currentIndex := by
  simp only [promoteFields]
  split <;> split <;> split <;> rfl

theorem promoteFields_requiredTypes (job : Job) (f : Fields) :
    (promoteFields job f).requiredTypes = job.requiredTypes := by
  simp only [promoteFields]
  split <;> split <;> split <;> rfl

theorem promoteFields_status (job : Job) (f : Fields) :
    (promoteFields job f).status = job.status := by
  simp only [promoteFields]
  split <;> split <;> split <;> rfl

theorem currentExpectedType_promote (job : Job) (f : Fields) :
    currentExpectedType (promoteFields job f) = currentExpectedType job := by
  simp only [currentExpectedType, promoteFields_currentIndex,
    promoteFields_requiredTypes]

theorem advanceCond_true {e : Option String} {t : String} {v : Verdict}
    (h1 : v.status = VStatus.PASS) (he : e = some t)
    (ht : resultTypeOf e v = t) :
    advanceCond e v = true := by
  subst he
  have hne : t ≠ "" := ht ▸ resultTypeOf_ne_empty (some t) v
  unfold advanceCond
  rw [h1, ht]
  simp [hne]

theorem advanceCond_false_of_fail {e : Option String} {v : Verdict}
    (h : v.status = VStatus.FAIL) : advanceCond e v = false := by
  unfold advanceCond
  rw [h]
  simp

/-! ## Claims -/

/-- C1: on a PASS verdict whose resolved type equals the job's current
expected type, both `_process_and_notify` and `debug_upload` advance
`currentIndex` by exactly 1, and mark the job DONE when the new index
equals the number of required types; on a FAIL verdict both leave
`currentIndex` and the job status unchanged. -/
theorem C1_cursor_advance (job : Job) (v : Verdict) :
    (v.status = VStatus.PASS →
      currentExpectedType job = some (resultTypeOf (currentExpectedType job) v) →
      (processVerdictBG job v).currentIndex = job.currentIndex + 1 ∧
      ((processVerdictBG job v).currentIndex = job.requiredTypes.length →
        (processVerdictBG job v).status = JobStatus.DONE) ∧
      (processVerdictDebug job v).currentIndex = job.currentIndex + 1 ∧
      ((processVerdictDebug job v).currentIndex = job.requiredTypes.length →
        (processVerdictDebug job v).status = JobStatus.DONE)) ∧
    (v.status = VStatus.FAIL →
      (processVerdictBG job v).currentIndex = job.currentIndex ∧
      (processVerdictBG job v).status = job.status ∧
      (processVerdictDebug job v).currentIndex = job.currentIndex ∧
      (processVerdictDebug job v).status = job.status) := by
  constructor
  · intro h1 h2
    have hadv : advanceCond (currentExpectedType job) v = true :=
      advanceCond_true h1 h2 rfl
    have hBGidx : (processVerdictBG job v).currentIndex = job.currentIndex + 1 := by
      simp only [processVerdictBG, hadv, if_true]
      split <;> simp [promoteFields_currentIndex]
    have hDbgidx : (processVerdictDebug job v).currentIndex = job.currentIndex + 1 := by
      simp only [processVerdictDebug, hadv, if_true]
      split <;> simp [promoteFields_currentIndex]
    refine ⟨hBGidx, ?_, hDbgidx, ?_⟩
    · intro hlen
      rw [hBGidx] at hlen
      have hnone : currentExpectedType
          { promoteFields job v.fields with
            currentIndex := (promoteFields job v.fields).currentIndex + 1 } = none := by
        simp [currentExpectedType, promoteFields_requiredTypes,
          promoteFields_currentIndex, List.get?_eq_none, ← hlen]
      simp only [processVerdictBG, hadv, if_true, hnone, h1]
      simp
    · intro hlen
      rw [hDbgidx] at hlen
      have hnone : currentExpectedType
          { promoteFields job v.fields with
            currentIndex := (promoteFields job v.fields).currentIndex + 1 } = none := by
        simp [currentExpectedType, promoteFields_requiredTypes,
          promoteFields_currentIndex, List.get?_eq_none, ← hlen]
      simp only [processVerdictDebug, hadv, if_true, hnone]
      simp
  · intro h1
    have hadv : advanceCond (currentExpectedType job) v = false :=
      advanceCond_false_of_fail h1
    have hnp : (v.status = VStatus.PASS) = False := by
      simp [h1]
    refine ⟨?_, ?_, ?_, ?_⟩ <;>
      simp [processVerdictBG, processVerdictDebug, hadv, hnp,
        promoteFields_currentIndex, promoteFields_status]

/-- Witness for C1 at a concrete job and verdict. -/
theorem C1_cursor_advance_witness :
    (processVerdictBG jobLA vPassLabel).currentIndex = 1 ∧
    (processVerdictDebug jobLastAz vPassAzimuth).status = JobStatus.DONE ∧
    (processVerdictBG jobLA (run_pipeline imgSkewNoIds ctxLabel [])).currentIndex = 0 := by
  refine ⟨?_, ?_, ?_⟩
  · exact ((C1_cursor_advance jobLA vPassLabel).1 (by decide) (by decide)).1
  · exact ((C1_cursor_advance jobLastAz vPassAzimuth).1 (by decide) (by decide)).2.2.2
      (by decide)
  · exact ((C1_cursor_advance jobLA (run_pipeline imgSkewNoIds ctxLabel [])).2
      (by decide)).1

theorem advanceCond_false_of_mismatch {e : Option String} {v : Verdict}
    (h : e ≠ some (resultTypeOf e v)) : advanceCond e v = false := by
  unfold advanceCond
  cases e with
  | none => simp
  | some t =>
    by_cases ht : resultTypeOf (some t) v = t
    · exact absurd (by rw [ht]) h
    · simp [ht]

theorem processVerdictBG_currentIndex_of_no_advance {job : Job} {v : Verdict}
    (h : advanceCond (currentExpectedType job) v = false) :
    (processVerdictBG job v).currentIndex = job.currentIndex := by
  simp only [processVerdictBG, h, Bool.false_eq_true, if_false]
  split <;> simp [promoteFields_currentIndex]

/-- C2 counterexample: with two equal consecutive required types, applying
the same PASS verdict twice advances the cursor twice — the second
application does not leave `currentIndex` unchanged, because the update is
not conditioned on the index. -/
theorem C2_counterexample :
    vPassLabel.status = VStatus.PASS ∧
    (processVerdictBG jobLL vPassLabel).currentIndex = 1 ∧
    (processVerdictBG (processVerdictBG jobLL vPassLabel) vPassLabel).currentIndex = 2 := by
  refine ⟨by decide, by decide, by decide⟩

/-- C2 (amended): the advance is guarded only by the verdict's resolved
type matching the job's current expected type — not by a conditional
index check — so a repeated PASS verdict is absorbed exactly when the
advanced job's expected type no longer equals the verdict's resolved type
(which fails when consecutive required types are equal). -/
theorem C2_duplicate_absorbed (job : Job) (v : Verdict)
    (h : currentExpectedType (processVerdictBG job v) ≠
      some (resultTypeOf (currentExpectedType (processVerdictBG job v)) v)) :
    (processVerdictBG (processVerdictBG job v) v).currentIndex =
      (processVerdictBG job v).currentIndex :=
  processVerdictBG_currentIndex_of_no_advance (advanceCond_false_of_mismatch h)

/-- Witness for C2's amended theorem: after a label PASS the job expects an
azimuth photo, so redelivering the same label verdict is absorbed. -/
theorem C2_duplicate_absorbed_witness :
    (processVerdictBG (processVerdictBG jobLA vPassLabel) vPassLabel).currentIndex =
      (processVerdictBG jobLA vPassLabel).currentIndex :=
  C2_duplicate_absorbed jobLA vPassLabel (by decide)

/-- C3: the duplicate flag is exactly "some prior fingerprint within the
configured Hamming threshold", and the prior-fingerprint list influences
nothing else: status and reasons are what they would be with no prior
fingerprints (the duplicate flag alone never causes FAIL and never appears
among the reasons). -/
theorem C3_duplicate_flag (img : ImgData) (ctx : JobCtx) (phashes : List String) :
    ((run_pipeline img ctx phashes).checks.isDuplicate = true ↔
      ∃ prev ∈ phashes, (hamming img.phash prev : ℚ) ≤ ctx.thresholds.dup_hamming_max) ∧
    (run_pipeline img ctx phashes).status = (run_pipeline img ctx []).status ∧
    (run_pipeline img ctx phashes).reason = (run_pipeline img ctx []).reason := by
  refine ⟨?_, ?_⟩
  · have hdup : (run_pipeline img ctx phashes).checks.isDuplicate =
        phashes.any fun prev =>
          decide ((hamming img.phash prev : ℚ) ≤ ctx.thresholds.dup_hamming_max) := by
      simp only [run_pipeline]
      by_cases hL : isLabelType (resolveType img ctx) <;>
        by_cases hA : isAzimuthType (resolveType img ctx) <;>
          simp [hL, hA]
    rw [hdup, List.any_eq_true]
    simp
  · constructor <;>
      · simp only [run_pipeline]
        by_cases hL : isLabelType (resolveType img ctx) <;>
          by_cases hA : isAzimuthType (resolveType img ctx) <;>
            simp [hL, hA]

/-- C4 counterexample: a blurry label photo whose OCR text carries a MAC.
The verdict reports "Image is blurry", yet its fields are empty even though
running the field extraction on the image's OCR text would have found the
MAC — extraction is skipped for blurry images, so not all other checks run. -/
theorem C4_counterexample :
    (run_pipeline imgBlurLabel ctxLabel []).reason.contains "Image is blurry" = true ∧
    (extract_label_fields (labelOcrHint imgBlurLabel)).macId = some "CC:54:FE:E3:26:F8" ∧
    (run_pipeline imgBlurLabel ctxLabel []).fields.macId = none := by
  refine ⟨by decide, by decide, by decide⟩

/-- C4 (amended): a blurry image gets the "blurry" reason and the pipeline
continues with the duplicate check and (for label types) the skew
measurement, but OCR-based field extraction is skipped: a blurry label
photo has empty fields and always also carries the could-not-read reason,
and a blurry azimuth photo has empty fields and only the blurry reason. -/
theorem C4_blur_short_circuit (img : ImgData) (ctx : JobCtx) (phashes : List String)
    (h : img.blur < ctx.thresholds.blur_min) :
    (run_pipeline img ctx phashes).reason.contains "Image is blurry" = true ∧
    (run_pipeline img ctx phashes).checks.isDuplicate =
      (phashes.any fun prev =>
        decide ((hamming img.phash prev : ℚ) ≤ ctx.thresholds.dup_hamming_max)) ∧
    (isLabelType (resolveType img ctx) = true →
      (run_pipeline img ctx phashes).checks.skewDeg = some img.skew ∧
      (run_pipeline img ctx phashes).fields = ({} : Fields) ∧
      (run_pipeline img ctx phashes).reason.contains "Could not read MAC/RSN from label" = true) ∧
    (isAzimuthType (resolveType img ctx) = true →
      (run_pipeline img ctx phashes).fields = ({} : Fields) ∧
      (run_pipeline img ctx phashes).reason = ["Image is blurry"]) := by
  have hAL : ∀ t : String, isLabelType t = true → isAzimuthType t = false := by
    intro t ht
    simp only [isLabelType, Bool.or_eq_true, decide_eq_true_eq] at ht
    rcases ht with h1 | h1 <;> simp [isAzimuthType, h1]
  simp only [run_pipeline, h, if_pos, List.contains_cons]
  by_cases hL : isLabelType (resolveType img ctx)
  · simp [hL, hAL _ hL]
  · by_cases hA : isAzimuthType (resolveType img ctx) <;> simp [hL, hA]

/-- Witness for C4's amended theorem at a concrete blurry label image and a
concrete blurry azimuth image. -/
theorem C4_blur_short_circuit_witness :
    (run_pipeline imgBlurLabel ctxLabel []).reason.contains "Could not read MAC/RSN from label" = true ∧
    (run_pipeline imgAzBlur ctxAzimuth []).reason = ["Image is blurry"] := by
  constructor
  · exact ((C4_blur_short_circuit imgBlurLabel ctxLabel [] (by decide)).2.2.1 (by decide)).2.2
  · exact ((C4_blur_short_circuit imgAzBlur ctxAzimuth [] (by decide)).2.2.2 (by decide)).2

/-- C7: for label-type verdicts — high skew with no identifiers adds the
"Label angle too skewed" reason; high skew with identifiers read adds only
the non-blocking `skewWarn` check and no skew reason; and whenever neither
MAC nor RSN was recovered the verdict carries the could-not-read reason and
FAILs. -/
theorem C7_label_rules (img : ImgData) (ctx : JobCtx) (phashes : List String)
    (hlab : isLabelType (resolveType img ctx) = true) :
    (∀ s : ℚ, img.skew = some s → ctx.thresholds.label_skew_max < s →
      (hasIds (run_pipeline img ctx phashes).fields = false →
        (run_pipeline img ctx phashes).reason.contains "Label angle too skewed" = true) ∧
      (hasIds (run_pipeline img ctx phashes).fields = true →
        (run_pipeline img ctx phashes).reason.contains "Label angle too skewed" = false ∧
        (run_pipeline img ctx phashes).checks.skewWarn = some true)) ∧
    (hasIds (run_pipeline img ctx phashes).fields = false →
      (run_pipeline img ctx phashes).reason.contains "Could not read MAC/RSN from label" = true ∧
      (run_pipeline img ctx phashes).status = VStatus.FAIL) := by
  simp only [run_pipeline, hlab, if_true]
  by_cases hb : img.blur < ctx.thresholds.blur_min
  · simp only [hb, if_true, if_pos]
    constructor
    · intro s hs hgt
      simp [hs, hgt, hasIds, pyTruthyS]
    · intro _
      simp
  · simp only [hb, if_false, if_neg]
    by_cases hid : pyTruthyS (extract_label_fields (labelOcrHint img)).macId ||
        pyTruthyS (extract_label_fields (labelOcrHint img)).rsn
    · constructor
      · intro s hs hgt
        simp [hs, hgt, hasIds, hid]
      · intro hfalse
        simp [hasIds, hid] at hfalse
    · constructor
      · intro s hs hgt
        simp [hs, hgt, hasIds, hid]
      · intro _
        simp [hid]

/-- Witness for C7 at concrete skewed label images with and without
readable identifiers. -/
theorem C7_label_rules_witness :
    (run_pipeline imgSkewNoIds ctxLabel []).reason.contains "Label angle too skewed" = true ∧
    (run_pipeline imgSkewIds ctxLabel []).reason.contains "Label angle too skewed" = false ∧
    (run_pipeline imgSkewIds ctxLabel []).checks.skewWarn = some true ∧
    (run_pipeline imgSkewNoIds ctxLabel []).status = VStatus.FAIL := by
  refine ⟨?_, ?_, ?_, ?_⟩
  · exact ((C7_label_rules imgSkewNoIds ctxLabel [] (by decide)).1 30 (by decide)
      (by decide)).1 (by decide)
  · exact (((C7_label_rules imgSkewIds ctxLabel [] (by decide)).1 30 (by decide)
      (by decide)).2 (by decide)).1
  · exact (((C7_label_rules imgSkewIds ctxLabel [] (by decide)).1 30 (by decide)
      (by decide)).2 (by decide)).2
  · exact ((C7_label_rules imgSkewNoIds ctxLabel [] (by decide)).2 (by decide)).2

theorem promoteFields_macId (job : Job) (f : Fields) :
    (promoteFields job f).macId = if pyTruthyS f.macId then f.macId else job.macId := by
  unfold promoteFields
  split_ifs <;> rfl

theorem promoteFields_rsnId (job : Job) (f : Fields) :
    (promoteFields job f).rsnId = if pyTruthyS f.rsn then f.rsn else job.rsnId := by
  unfold promoteFields
  split_ifs <;> rfl

theorem promoteFields_azimuthDeg (job : Job) (f : Fields) :
    (promoteFields job f).azimuthDeg =
      if f.azimuthDeg.isSome then f.azimuthDeg else job.azimuthDeg := by
  unfold promoteFields
  split_ifs <;> rfl

theorem processVerdictBG_macId (job : Job) (v : Verdict) :
    (processVerdictBG job v).macId = (promoteFields job v.fields).macId := by
  simp only [processVerdictBG]
  split <;> split <;> rfl

theorem processVerdictBG_rsnId (job : Job) (v : Verdict) :
    (processVerdictBG job v).rsnId = (promoteFields job v.fields).rsnId := by
  simp only [processVerdictBG]
  split <;> split <;> rfl

theorem processVerdictBG_azimuthDeg (job : Job) (v : Verdict) :
    (processVerdictBG job v).azimuthDeg = (promoteFields job v.fields).azimuthDeg := by
  simp only [processVerdictBG]
  split <;> split <;> rfl

theorem extract_label_fields_azimuthDeg (t : String) :
    (extract_label_fields t).azimuthDeg = none := rfl

theorem extract_azimuth_macId (t : String) : (extract_azimuth t).macId = none := by
  unfold extract_azimuth
  obtain ⟨d, dir⟩ := extract_angle t
  rfl

theorem extract_azimuth_rsn (t : String) : (extract_azimuth t).rsn = none := by
  unfold extract_azimuth
  obtain ⟨d, dir⟩ := extract_angle t
  rfl

theorem run_pipeline_fail_fields (img : ImgData) (ctx : JobCtx) (ph : List String)
    (h : (run_pipeline img ctx ph).status = VStatus.FAIL) :
    pyTruthyS (run_pipeline img ctx ph).fields.macId = false ∧
    pyTruthyS (run_pipeline img ctx ph).fields.rsn = false ∧
    ((run_pipeline img ctx ph).fields.azimuthDeg = none ∨
      (run_pipeline img ctx ph).fields.azimuthDeg = some 0) := by
  by_cases hL : isLabelType (resolveType img ctx)
  · by_cases hb : img.blur < ctx.thresholds.blur_min
    · simp [run_pipeline, hL, hb, pyTruthyS]
    · by_cases hid : pyTruthyS (extract_label_fields (labelOcrHint img)).macId ||
          pyTruthyS (extract_label_fields (labelOcrHint img)).rsn
      · simp [run_pipeline, hL, hb, hid] at h
      · simp only [Bool.or_eq_true, not_or, Bool.not_eq_true] at hid
        simp [run_pipeline, hL, hb, hid.1, hid.2, extract_label_fields_azimuthDeg]
  · by_cases hA : isAzimuthType (resolveType img ctx)
    · by_cases hb : img.blur < ctx.thresholds.blur_min
      · simp [run_pipeline, hL, hA, hb, pyTruthyS]
      · rcases haz : (extract_azimuth (ocr_text_block img)).azimuthDeg with _ | d
        · simp [run_pipeline, hL, hA, hb, haz, extract_azimuth_macId,
            extract_azimuth_rsn, pyTruthyS]
        · by_cases hz : d = 0
          · subst hz
            simp [run_pipeline, hL, hA, hb, haz, extract_azimuth_macId,
              extract_azimuth_rsn, pyTruthyS]
          · simp [run_pipeline, hL, hA, hb, haz, hz] at h
    · simp [run_pipeline, hL, hA, pyTruthyS]

/-- C9 counterexample: an azimuth photo reading 0° produces a FAIL verdict
(`not fields.get("azimuthDeg")` treats 0 as missing), yet the promotion
block runs before the status check and `azimuthDeg is not None`, so the
job's promoted `azimuthDeg` still changes. -/
theorem C9_counterexample :
    (run_pipeline imgAzZero ctxAzimuth []).status = VStatus.FAIL ∧
    jobLastAz.azimuthDeg = none ∧
    (processVerdictBG jobLastAz (run_pipeline imgAzZero ctxAzimuth [])).azimuthDeg = some 0 := by
  refine ⟨by decide, by decide, by decide⟩

/-- C9 (amended): promotion is keyed on the extracted fields, not on the
verdict status.  A FAIL verdict still never changes the promoted
`macId`/`rsnId` (a pipeline verdict with a readable identifier passes), but
it can change `azimuthDeg`: exactly when the extracted azimuth reading is
0, which the azimuth check treats as unreadable. -/
theorem C9_promotion_on_fail (img : ImgData) (ctx : JobCtx) (ph : List String)
    (job : Job) (h : (run_pipeline img ctx ph).status = VStatus.FAIL) :
    (processVerdictBG job (run_pipeline img ctx ph)).macId = job.macId ∧
    (processVerdictBG job (run_pipeline img ctx ph)).rsnId = job.rsnId ∧
    ((processVerdictBG job (run_pipeline img ctx ph)).azimuthDeg = job.azimuthDeg ∨
      (run_pipeline img ctx ph).fields.azimuthDeg = some 0) := by
  obtain ⟨hmac, hrsn, haz⟩ := run_pipeline_fail_fields img ctx ph h
  refine ⟨?_, ?_, ?_⟩
  · rw [processVerdictBG_macId, promoteFields_macId, hmac]
    simp
  · rw [processVerdictBG_rsnId, promoteFields_rsnId, hrsn]
    simp
  · rcases haz with haz | haz
    · left
      rw [processVerdictBG_azimuthDeg, promoteFields_azimuthDeg, haz]
      simp
    · right
      exact haz

/-- Witness for C9's amended theorem at a concrete failing label photo. -/
theorem C9_promotion_on_fail_witness :
    (processVerdictBG jobLA (run_pipeline imgSkewNoIds ctxLabel [])).macId = jobLA.macId ∧
    (processVerdictBG jobLA (run_pipeline imgSkewNoIds ctxLabel [])).azimuthDeg =
      jobLA.azimuthDeg := by
  constructor
  · exact (C9_promotion_on_fail imgSkewNoIds ctxLabel [] jobLA (by decide)).1
  · exact (C9_promotion_on_fail imgSkewNoIds ctxLabel [] jobLA (by decide)).2.2.resolve_right
      (by decide)

/-- C5 counterexample: the extractor performs no confusable-glyph mapping.
On `"MAC CC:54:FE:E3:Z6:F8"` it does not return the claimed
`"CC:54:FE:E3:26:F8"` — it finds no MAC at all. -/
theorem C5_counterexample :
    extract_mac_from_lines ["MAC CC:54:FE:E3:Z6:F8"] ≠ some "CC:54:FE:E3:26:F8" ∧
    extract_mac_from_lines ["MAC CC:54:FE:E3:Z6:F8"] = none := by
  refine ⟨by decide, by decide⟩

/-- C5 (amended): MAC "normalization" only collects hexadecimal pairs (no
glyph mapping), so the confusable-glyph input yields no MAC, while clean
inputs in any separator form normalize to the canonical colon-joined
uppercase pairs. -/
theorem C5_no_glyph_mapping :
    extract_mac_from_lines ["MAC CC:54:FE:E3:Z6:F8"] = none ∧
    extract_mac_from_lines ["MAC CC:54:FE:E3:26:F8"] = some "CC:54:FE:E3:26:F8" ∧
    extract_mac_from_lines ["MAC CC54FEE326F8"] = some "CC:54:FE:E3:26:F8" ∧
    (∀ raw mac, normalize_mac raw = some mac →
      mac = colonJoin (((hexPairsF raw.data).take 6).map pyUpper)) := by
  refine ⟨by decide, by decide, by decide, ?_⟩
  intro raw mac h
  unfold normalize_mac at h
  by_cases hr : raw = ""
  · simp [hr] at h
  · simp only [hr, if_false] at h
    by_cases hl : (hexPairsF raw.data).length < 6
    · simp [hl] at h
    · simp only [hl, if_false, Option.some_inj] at h
      exact h.symm

/-- Witness for C5's amended theorem: `normalize_mac` on an input with more
than six pairs keeps the first six. -/
theorem C5_no_glyph_mapping_witness :
    normalize_mac "cc:54:fe:e3:26:f8:aa:bb" = some "CC:54:FE:E3:26:F8" ∧
    "CC:54:FE:E3:26:F8" =
      colonJoin (((hexPairsF "cc:54:fe:e3:26:f8:aa:bb".data).take 6).map pyUpper) := by
  constructor
  · decide
  · exact C5_no_glyph_mapping.2.2.2 "cc:54:fe:e3:26:f8:aa:bb" "CC:54:FE:E3:26:F8" (by decide)

/-- C6 counterexample: a labeled serial whose token fails the plausibility
filter (six characters, no digits).  The label pattern matches and captures
`"ABCDEF"`, yet extraction returns nothing — so a labeled 6–24
alphanumeric token is *not* always returned. -/
theorem C6_counterexample :
    rsnLabeledSearch "SERIAL: ABCDEF".data = some "ABCDEF" ∧
    extract_rsn "SERIAL: ABCDEF" [] = none := by
  refine ⟨by decide, by decide⟩

/-- C6 (amended): a labeled RSN token is returned (uppercased) only when it
also passes the `_is_probable_rsn` filter — length 8–24, at least three
digits, not MAC-shaped, not a stopword; the fallback token scan behaves as
claimed, and the two documented examples hold. -/
theorem C6_labeled_rsn (text : String) (lines : List String) (tok : String)
    (hsearch : rsnLabeledSearch text.data = some tok)
    (hprob : is_probable_rsn (pyUpper tok) = true) :
    extract_rsn text lines = some (pyUpper tok) := by
  have hne : text ≠ "" := by
    intro h
    rw [h] at hsearch
    simp [rsnLabeledSearch, searchG] at hsearch
  unfold extract_rsn
  simp [hne, hsearch, hprob]

/-- Witness for C6's amended theorem, plus the two documented examples. -/
theorem C6_labeled_rsn_witness :
    extract_rsn "S/N: ABCD1234EF" [] = some "ABCD1234EF" ∧
    extract_rsn "INDIA WARRANTY MODEL" [] = none := by
  constructor
  · exact C6_labeled_rsn "S/N: ABCD1234EF" [] "ABCD1234EF" (by decide) (by decide)
  · decide

theorem uintLe_toNat (a b : UInt32) : a ≤ b ↔ a.toNat ≤ b.toNat :=
  UInt32.le_def.trans BitVec.le_def

theorem charLe_toNat (a b : Char) : a ≤ b ↔ a.toNat ≤ b.toNat :=
  Char.le_def.trans (uintLe_toNat _ _)

theorem toNat_charOfNat {n : Nat} (h : n < 0xd800) : (Char.ofNat n).toNat = n := by
  simp [Char.ofNat, Char.toNat, Nat.isValidChar, h, Char.ofNatAux, UInt32.toNat,
    UInt32.toBitVec, BitVec.toNat_ofNatLt]

theorem upperHex_of_hex {c : Char} (h : isHexC c = true) :
    isUpperHexC (asciiUpper c) = true := by
  have hnum : (48 ≤ c.toNat ∧ c.toNat ≤ 57) ∨ (97 ≤ c.toNat ∧ c.toNat ≤ 102) ∨
      (65 ≤ c.toNat ∧ c.toNat ≤ 70) := by
    unfold isHexC at h
    simp only [Char.isDigit, ge_iff_le, Bool.or_eq_true, Bool.and_eq_true,
      decide_eq_true_eq, charLe_toNat, uintLe_toNat,
      show ((48 : UInt32)).toNat = 48 from rfl, show ((57 : UInt32)).toNat = 57 from rfl,
      show (Char.val c).toNat = c.toNat from rfl,
      show ('a').toNat = 97 from rfl, show ('f').toNat = 102 from rfl,
      show ('A').toNat = 65 from rfl, show ('F').toNat = 70 from rfl] at h
    omega
  unfold isUpperHexC asciiUpper
  simp only [Char.isDigit, ge_iff_le, Bool.or_eq_true, Bool.and_eq_true,
    decide_eq_true_eq, charLe_toNat, uintLe_toNat,
    show ((48 : UInt32)).toNat = 48 from rfl, show ((57 : UInt32)).toNat = 57 from rfl,
    show ('a').toNat = 97 from rfl, show ('z').toNat = 122 from rfl,
    show ('A').toNat = 65 from rfl, show ('F').toNat = 70 from rfl]
  by_cases hlow : 97 ≤ c.toNat ∧ c.toNat ≤ 122
  · rw [if_pos]
    · have hbound : c.toNat - 32 < 0xd800 := by omega
      rw [show (Char.val (Char.ofNat (c.toNat - 32))).toNat = (Char.ofNat (c.toNat - 32)).toNat from rfl]
      rw [toNat_charOfNat hbound]
      omega
    · exact hlow
  · rw [if_neg hlow]
    rw [show (Char.val c).toNat = c.toNat from rfl]
    omega


/-- A two-character hex-pair string. -/
def pairHexOK (p : String) : Bool :=
  match p.data with
  | [c0, c1] => isHexC c0 && isHexC c1
  | _ => false

/-- A two-character uppercase hex-pair string. -/
def pairUpperOK (p : String) : Bool :=
  match p.data with
  | [c0, c1] => isUpperHexC c0 && isUpperHexC c1
  | _ => false

theorem hexPairsF_ok (cs : List Char) : ∀ p ∈ hexPairsF cs, pairHexOK p = true := by
  induction cs using hexPairsF.induct with
  | case1 c0 c1 rest hhex ih =>
    intro p hp
    rw [hexPairsF] at hp
    simp only [hhex, if_true, List.mem_cons] at hp
    rcases hp with rfl | hp
    · simp [pairHexOK]
      exact Bool.and_eq_true _ _ |>.mp hhex |>.imp id id
    · exact ih p hp
  | case2 c0 c1 rest hhex ih =>
    intro p hp
    rw [hexPairsF] at hp
    simp only [hhex, if_false] at hp
    exact ih p hp
  | case3 cs h =>
    intro p hp
    rw [hexPairsF] at hp
    · simp at hp
    · exact h


theorem pairUpperOK_of_pairHexOK {p : String} (h : pairHexOK p = true) :
    pairUpperOK (pyUpper p) = true := by
  unfold pairHexOK at h
  unfold pairUpperOK pyUpper upperL
  obtain ⟨d⟩ := p
  match d, h with
  | [c0, c1], h =>
    simp only [Bool.and_eq_true] at h
    simp [upperHex_of_hex h.1, upperHex_of_hex h.2]

theorem macGroups_colonJoin : ∀ (l : List String) (n : Nat), l.length = n → 1 ≤ n →
    (∀ p ∈ l, pairUpperOK p = true) → macGroups n (colonJoin l).data = true := by
  intro l
  induction l with
  | nil =>
    intro n hn h1 _
    simp at hn
    omega
  | cons p rest ih =>
    intro n hn h1 hall
    have hp : pairUpperOK p = true := hall p (by simp)
    unfold pairUpperOK at hp
    cases rest with
    | nil =>
      simp at hn
      subst hn
      obtain ⟨d⟩ := p
      match d, hp with
      | [c0, c1], hp =>
        simp only [Bool.and_eq_true] at hp
        simp [colonJoin, macGroups, hp.1, hp.2]
    | cons q t =>
      have hlen : (q :: t).length + 1 = n := by simpa using hn
      have hjoin : colonJoin (p :: q :: t) = p ++ ":" ++ colonJoin (q :: t) := rfl
      rw [hjoin]
      obtain ⟨m, hm⟩ : ∃ m, n = m + 2 := ⟨(q :: t).length - 1, by simp at hlen ⊢; omega⟩
      subst hm
      obtain ⟨d⟩ := p
      match d, hp with
      | [c0, c1], hp =>
        simp only [pairUpperOK, Bool.and_eq_true] at hp
        have hdata : ((String.mk [c0, c1] ++ ":" ++ colonJoin (q :: t)).data) =
            c0 :: c1 :: ':' :: (colonJoin (q :: t)).data := by
          simp [String.data_append]
        rw [hdata]
        have : macGroups (m + 1) (colonJoin (q :: t)).data = true :=
          ih (m + 1) (by omega) (by omega) (fun x hx => hall x (by simp [hx]))
        simp [macGroups, hp.1, hp.2, this]

theorem normalize_mac_canonical {raw mac : String} (h : normalize_mac raw = some mac) :
    isCanonicalMac mac = true := by
  unfold normalize_mac at h
  by_cases hr : raw = ""
  · simp [hr] at h
  · simp only [hr, if_false] at h
    by_cases hl : (hexPairsF raw.data).length < 6
    · simp [hl] at h
    · simp only [hl, if_false, Option.some_inj] at h
      subst h
      unfold isCanonicalMac
      apply macGroups_colonJoin _ 6
      · simp
        omega
      · omega
      · intro p hp
        simp only [List.mem_map] at hp
        obtain ⟨x, hx, rfl⟩ := hp
        exact pairUpperOK_of_pairHexOK (hexPairsF_ok raw.data x (List.mem_of_mem_take hx))


theorem pickBestMac_mem : ∀ (rest : List (String × Bool)) (best : String × Bool),
    pickBestMac best rest = best.1 ∨ pickBestMac best rest ∈ rest.map Prod.fst := by
  intro rest
  induction rest with
  | nil => intro best; left; rfl
  | cons c t ih =>
    intro best
    rw [pickBestMac]
    by_cases hs : scoreGT (macScore c.1 c.2) (macScore best.1 best.2) = true
    · rw [if_pos hs]
      rcases ih c with h | h
      · right
        rw [h, List.map_cons]
        exact List.mem_cons_self _ _
      · right
        rw [List.map_cons]
        exact List.mem_cons_of_mem _ h
    · rw [if_neg hs]
      rcases ih best with h | h
      · left
        exact h
      · right
        rw [List.map_cons]
        exact List.mem_cons_of_mem _ h

theorem mem_lineStrict_normalized {cs : List Char} {n : String}
    (h : n ∈ lineStrict cs) : ∃ raw, normalize_mac raw = some n := by
  unfold lineStrict at h
  rw [List.mem_append] at h
  rcases h with h | h <;>
    · simp only [Option.mem_toList, Option.mem_def, Option.bind_eq_some] at h
      obtain ⟨raw, _, hn⟩ := h
      exact ⟨raw, hn⟩

theorem mem_passALine_normalized {ln : String} {x : String × Bool}
    (h : x ∈ passALine ln) : ∃ raw, normalize_mac raw = some x.1 := by
  simp only [passALine] at h
  split at h
  · simp at h
  · split at h
    · simp at h
    · split at h
      · rename_i n heq
        simp only [List.mem_singleton] at h
        subst h
        rw [Option.bind_eq_some] at heq
        obtain ⟨raw, _, hn⟩ := heq
        exact ⟨raw, hn⟩
      · simp only [List.mem_map] at h
        obtain ⟨n, hn, rfl⟩ := h
        exact mem_lineStrict_normalized hn

theorem mem_passBLine_normalized {ln : String} {x : String × Bool}
    (h : x ∈ passBLine ln) : ∃ raw, normalize_mac raw = some x.1 := by
  simp only [passBLine] at h
  split at h
  · simp at h
  · simp only [List.mem_map] at h
    obtain ⟨n, hn, rfl⟩ := h
    exact mem_lineStrict_normalized hn

theorem mem_passCLine_normalized {ln : String} {x : String × Bool}
    (h : x ∈ passCLine ln) : ∃ raw, normalize_mac raw = some x.1 := by
  simp only [passCLine] at h
  split at h
  · simp at h
  · split at h
    · simp at h
    · rename_i tl _
      rw [List.mem_filterMap] at h
      obtain ⟨w, _, hw⟩ := h
      split at hw
      · rw [Option.map_eq_some'] at hw
        obtain ⟨n, hn, rfl⟩ := hw
        exact ⟨colonJoin w, hn⟩
      · simp at hw

theorem extract_mac_from_lines_normalized {lines : List String} {mac : String}
    (h : extract_mac_from_lines lines = some mac) :
    ∃ raw, normalize_mac raw = some mac := by
  simp only [extract_mac_from_lines] at h
  split at h
  · simp at h
  · rename_i c rest heq
    rw [Option.some_inj] at h
    have hcand : ∀ y ∈ (c :: rest), ∃ raw, normalize_mac raw = some y.1 := by
      intro y hy
      rw [← heq] at hy
      split at hy
      · rw [List.mem_flatMap] at hy
        obtain ⟨ln, _, hin⟩ := hy
        exact mem_passALine_normalized hin
      · split at hy
        · rw [List.mem_flatMap] at hy
          obtain ⟨ln, _, hin⟩ := hy
          exact mem_passBLine_normalized hin
        · rw [List.mem_flatMap] at hy
          obtain ⟨ln, _, hin⟩ := hy
          exact mem_passCLine_normalized hin
    rcases pickBestMac_mem rest c with hm | hm
    · have hc : c.1 = mac := by rw [← hm, h]
      rw [← hc]
      exact hcand c (List.mem_cons_self _ _)
    · rw [List.mem_map] at hm
      obtain ⟨y, hy, hfst⟩ := hm
      have hc : y.1 = mac := by rw [hfst, h]
      rw [← hc]
      exact hcand y (List.mem_cons_of_mem _ hy)

/-- C10: every MAC returned by the line-based extractor is canonical — six
uppercase two-hex-digit groups joined by colons — whatever separator form
the input used; and surplus hex pairs beyond the first six are dropped
(all three candidate passes normalize through `normalize_mac`, which keeps
the first six pairs found). -/
theorem C10_canonical_form :
    (∀ (lines : List String) (mac : String),
      extract_mac_from_lines lines = some mac → isCanonicalMac mac = true) ∧
    extract_mac_from_lines ["MAC CC:54:FE:E3:26:F8"] = some "CC:54:FE:E3:26:F8" ∧
    extract_mac_from_lines ["mac id: cc-54-fe-e3-26-f8"] = some "CC:54:FE:E3:26:F8" ∧
    extract_mac_from_lines ["WLAN MAC CC.54.FE.E3.26.F8"] = some "CC:54:FE:E3:26:F8" ∧
    extract_mac_from_lines ["MAC CC54FEE326F8"] = some "CC:54:FE:E3:26:F8" ∧
    extract_mac_from_lines ["MAC CC 54 FE E3 26 F8"] = some "CC:54:FE:E3:26:F8" ∧
    extract_mac_from_lines ["MAC CC:54:FE:E3:26:F8:AA:BB"] = some "CC:54:FE:E3:26:F8" := by
  refine ⟨?_, by decide, by decide, by decide, by decide, by decide, by decide⟩
  intro lines mac h
  obtain ⟨raw, hn⟩ := extract_mac_from_lines_normalized h
  exact normalize_mac_canonical hn

/-- Witness for C10's universal part at a concrete extraction. -/
theorem C10_canonical_form_witness :
    extract_mac_from_lines ["serial 4A5B6C7D8E9F stuff"] = some "4A:5B:6C:7D:8E:9F" ∧
    isCanonicalMac "4A:5B:6C:7D:8E:9F" = true := by
  refine ⟨by decide, ?_⟩
  exact C10_canonical_form.1 ["serial 4A5B6C7D8E9F stuff"] "4A:5B:6C:7D:8E:9F" (by decide)


theorem extractAngleLoop_eq (ms : List (Nat × Option String))
    (fb : Option (Nat × Option String)) :
    extractAngleLoop ms fb =
      match ((ms.filter fun m => m.1 ≤ 360).filter fun m => m.2.isSome).head? with
      | some m => (some m.1, m.2)
      | none =>
        match fb with
        | some f => (some f.1, f.2)
        | none =>
          match (ms.filter fun m => m.1 ≤ 360).head? with
          | some m => (some m.1, none)
          | none => (none, none) := by
  induction ms generalizing fb with
  | nil => rcases fb with _ | ⟨d, dir⟩ <;> rfl
  | cons m rest ih =>
    obtain ⟨d, dir⟩ := m
    by_cases hd : d ≤ 360
    · rcases dir with _ | dd
      · rw [extractAngleLoop.eq_def]
        simp only [if_pos hd]
        rw [ih]
        rcases fb with _ | f <;>
          simp [List.filter_cons, hd]
      · rw [extractAngleLoop.eq_def]
        simp only [if_pos hd]
        simp [List.filter_cons, hd]
    · rw [extractAngleLoop.eq_def]
      simp only [if_neg hd]
      rw [ih]
      simp [List.filter_cons, hd]


theorem extract_angle_eq_specAngle (text : String) :
    extract_angle text = specAngle text := by
  unfold extract_angle specAngle
  by_cases ht : text = ""
  · subst ht
    rfl
  · rw [if_neg ht, extractAngleLoop_eq]

theorem extract_angle_le_360 (text : String) (d : Nat) (dir : Option String)
    (h : extract_angle text = (some d, dir)) : d ≤ 360 := by
  rw [extract_angle_eq_specAngle] at h
  unfold specAngle at h
  rcases hh : (((angleMatches text.data).filter fun m => m.1 ≤ 360).filter
      fun m => m.2.isSome).head? with _ | m
  · rcases hh2 : ((angleMatches text.data).filter fun m => m.1 ≤ 360).head? with _ | m2
    · simp only [hh, hh2] at h
      simp at h
    · simp only [hh, hh2] at h
      have hm : m2 ∈ (angleMatches text.data).filter fun m => m.1 ≤ 360 :=
        List.mem_of_mem_head? (by rw [hh2]; simp)
      have := (List.mem_filter.mp hm).2
      simp only [Prod.mk.injEq, Option.some_inj] at h
      rw [← h.1]
      simpa using this
  · simp only [hh] at h
    have hm : m ∈ ((angleMatches text.data).filter fun m => m.1 ≤ 360).filter
        fun m => m.2.isSome :=
      List.mem_of_mem_head? (by rw [hh]; simp)
    have hm2 := List.mem_of_mem_filter hm
    have := (List.mem_filter.mp hm2).2
    simp only [Prod.mk.injEq, Option.some_inj] at h
    rw [← h.1]
    simpa using this

/-- C8: azimuth extraction accepts only degree values in [0, 360], prefers
the first match with an explicit compass direction, and otherwise falls
back to the first in-range numeric match without direction; the three
documented examples behave as stated. -/
theorem C8_azimuth_extraction :
    (∀ text : String, extract_angle text = specAngle text) ∧
    (∀ (text : String) (d : Nat) (dir : Option String),
      extract_angle text = (some d, dir) → d ≤ 360) ∧
    extract_angle "Reading: 123° NE" = (some 123, some "NE") ∧
    extract_angle "45 deg" = (some 45, none) ∧
    extract_angle "400°" = (none, none) :=
  ⟨extract_angle_eq_specAngle, extract_angle_le_360, by decide, by decide, by decide⟩

/-- Witness for C8 at a concrete extraction with a direction. -/
theorem C8_azimuth_extraction_witness :
    extract_angle "270°sw" = (some 270, some "SW") ∧ (270 : Nat) ≤ 360 := by
  refine ⟨by decide, ?_⟩
  exact C8_azimuth_extraction.2.1 "270°sw" 270 (some "SW") (by decide)

end FieldLens
